import Mathlib

/-!
# Verification of the Raid task-dispatch and reasoning-loop core

This file gives a shallow embedding, in Lean 4, of the parts of the Raid
multi-agent orchestration system that its specification makes claims about:

* the Redis-backed message queue (`src/raid/message_queue/redis_mq.py` and
  `models.py`): queue naming, LPUSH/BRPOP list discipline, and the
  correlation-id matching loop `wait_for_result`;
* the dispatch meta-tool (`src/raid/control_agent/meta_tools.py`);
* the control-agent ReAct engine (`src/raid/control_agent/react_engine.py`),
  including its tolerant parse fallback;
* the sub-agent ReAct engine (`src/raid/sub_agent/react_engine.py`),
  including observation truncation and result construction;
* the lifecycle manager (`src/raid/lifecycle/manager.py`): capacity-bounded
  registration and the stale/idle/capacity reap passes;
* the collaboration rate limiter (`src/raid/config/collaboration.py`).

External effects (Redis, Docker, the LLM backend, tool subprocesses, the
wall clock) are modelled as explicit parameters: queues are lists, time is
an integer, the LLM and tools are oracles supplying one outcome per step,
and blocking waits are given a fuel bound standing for the deadline.
Python `datetime` values are modelled as integers in a single time unit
(seconds), and Python exceptions as `Except` values.  Python strings are
Lean `String`s (sequences of unicode code points, matching `len` and
slicing on `str`); the ASCII-only spots where Lean's `Char.toLower` and
`Char.isDigit` are narrower than Python's unicode-aware versions are noted
at the definitions that use them.
-/

namespace Raid

/-! ## String helpers mirroring the Python string operations used -/

/-- `needle.isPrefixOf`-based substring test: Python's `needle in hay`. -/
def listContainsSub (needle : List Char) : List Char → Bool
  | [] => needle.isEmpty
  | c :: rest => needle.isPrefixOf (c :: rest) || listContainsSub needle rest

/-- Python `needle in hay` on strings. -/
def strContains (hay needle : String) : Bool :=
  listContainsSub needle.data hay.data

/-- Python `hay.startswith(pre)`. -/
def strStartsWith (hay pre : String) : Bool :=
  pre.data.isPrefixOf hay.data

/-- Replace every occurrence of the non-empty pattern `p0 :: ps` in a
character list, left to right, as Python `str.replace` does.  The `fuel`
argument (structurally decreasing, supplied as the list length so that
it never runs out) only serves Lean's termination checker: each step
consumes at least one character. -/
def replaceSubAux (p0 : Char) (ps rep : List Char) : Nat → List Char → List Char
  | _, [] => []
  | 0, l => l
  | fuel + 1, c :: rest =>
    if (p0 :: ps).isPrefixOf (c :: rest) then
      rep ++ replaceSubAux p0 ps rep fuel (rest.drop ps.length)
    else
      c :: replaceSubAux p0 ps rep fuel rest

/-- Python `s.replace(pat, rep)` (for the non-empty patterns used here). -/
def strReplace (s pat rep : String) : String :=
  match pat.data with
  | [] => s
  | p0 :: ps => ⟨replaceSubAux p0 ps rep.data s.data.length s.data⟩

/-- Render an `Option String` the way a Python f-string renders a value
that may be `None`. -/
def renderOpt : Option String → String
  | some s => s
  | none => "None"

/-- Python `x or default` on an optional string: `None` and `""` are falsy. -/
def pyStrOr (o : Option String) (dflt : String) : String :=
  match o with
  | some s => if s = "" then dflt else s
  | none => dflt

/-! ## Message models (`src/raid/message_queue/models.py`)

`TaskMessage.correlation_id` is `Optional[str]` in the source while
`ResultMessage.correlation_id` is a required `str`; pydantic raises a
validation error when a `ResultMessage` is built from a missing
correlation id, which the embedding surfaces as `Except.error`. -/

structure TaskMessage where
  task_id : String
  sub_agent_profile : String
  prompt : String
  tools : List String
  correlation_id : Option String
  timestamp : Int
deriving DecidableEq, Repr

structure ResultMessage where
  task_id : String
  correlation_id : String
  status : String
  result : Option String := none
  error : Option String := none
  timestamp : Int := 0
deriving DecidableEq, Repr

/-- `ResultMessage.success` classmethod. -/
def ResultMessage.mkSuccess (task_id correlation_id result : String)
    (timestamp : Int := 0) : ResultMessage :=
  { task_id := task_id, correlation_id := correlation_id, status := "success",
    result := some result, timestamp := timestamp }

/-- `ResultMessage.create_error` classmethod. -/
def ResultMessage.create_error (task_id correlation_id error : String)
    (timestamp : Int := 0) : ResultMessage :=
  { task_id := task_id, correlation_id := correlation_id, status := "error",
    error := some error, timestamp := timestamp }

/-! ## Redis list queues (`src/raid/message_queue/redis_mq.py`)

A Redis list is modelled as a Lean list whose head is the LPUSH end;
`BRPOP` removes from the tail.  `send_result`/`send_task` LPUSH one
serialised message; `receive_result`/`receive_task` BRPOP one. -/

/-- `get_task_queue_name`: the task queue key for a profile. -/
def get_task_queue_name (profile : String) : String :=
  "raid:tasks:" ++ profile

/-- `get_result_queue_name`: the result queue key for a profile. -/
def get_result_queue_name (profile : String) : String :=
  "raid:results:" ++ profile

/-- LPUSH: producers prepend at the head of the list. -/
def lpush {α} (m : α) (q : List α) : List α := m :: q

/-- BRPOP: the consumer removes the element at the tail of the list
(`none` when the queue is empty and the blocking pop times out). -/
def brpop {α} : List α → Option (α × List α)
  | [] => none
  | m :: rest =>
    match brpop rest with
    | some (r, rest') => some (r, m :: rest')
    | none => some (m, [])

/-- `RedisMQ.wait_for_result`: poll the result queue with a short unit
timeout until the deadline (modelled as `fuel` polls) expires or a
message with the wanted correlation id appears; a popped message with a
different correlation id is pushed back (LPUSH) onto the same queue
before polling continues.  Returns the consumed message, if any, and the
final queue contents. -/
def wait_for_result (fuel : Nat) (correlation_id : String)
    (result_queue : List ResultMessage) :
    Option ResultMessage × List ResultMessage :=
  match fuel with
  | 0 => (none, result_queue)
  | fuel + 1 =>
    match brpop result_queue with
    | none => wait_for_result fuel correlation_id result_queue
    | some (r, rest) =>
      if r.correlation_id = correlation_id then (some r, rest)
      else wait_for_result fuel correlation_id (lpush r rest)

/-- The caller-visible outcome of `DispatchToSubAgentTool.execute` once
`wait_for_result` has returned: the meta-tool renders the optional result
as an observation string and synthesises no message on timeout. -/
def dispatch_render_result (profile : String) (timeout : Nat)
    (res : Option ResultMessage) : String :=
  match res with
  | some r =>
    if r.status = "success" then "Sub-Agent Result: " ++ renderOpt r.result
    else "Sub-Agent Error: " ++ renderOpt r.error
  | none =>
    "Timeout: No result received from " ++ profile ++ " within " ++
      toString timeout ++ " seconds"

/-! ## Queue lemmas -/

theorem brpop_none_iff {α} (q : List α) : brpop q = none ↔ q = [] := by
  cases q with
  | nil => simp [brpop]
  | cons m rest =>
    simp only [brpop]
    cases brpop rest with
    | none => simp
    | some pr => simp

theorem brpop_perm {α} (q : List α) (r : α) (rest : List α)
    (h : brpop q = some (r, rest)) : q.Perm (r :: rest) := by
  induction q generalizing r rest with
  | nil => simp [brpop] at h
  | cons m tail ih =>
    simp only [brpop] at h
    cases hb : brpop tail with
    | none =>
      rw [hb] at h
      simp only [Option.some.injEq, Prod.mk.injEq] at h
      obtain ⟨h1, h2⟩ := h
      subst h1; subst h2
      rw [(brpop_none_iff tail).mp hb]
    | some pr =>
      obtain ⟨r', rest'⟩ := pr
      rw [hb] at h
      simp only [Option.some.injEq, Prod.mk.injEq] at h
      obtain ⟨h1, h2⟩ := h
      subst h1; subst h2
      exact ((ih r' rest' hb).cons m).trans (List.Perm.swap r' m rest')

theorem wait_for_result_succ_empty (fuel : Nat) (cid : String)
    (q : List ResultMessage) (h : brpop q = none) :
    wait_for_result (fuel + 1) cid q = wait_for_result fuel cid q := by
  simp [wait_for_result, h]

theorem wait_for_result_succ_pop (fuel : Nat) (cid : String)
    (q rest : List ResultMessage) (r : ResultMessage)
    (h : brpop q = some (r, rest)) :
    wait_for_result (fuel + 1) cid q =
      if r.correlation_id = cid then (some r, rest)
      else wait_for_result fuel cid (lpush r rest) := by
  simp [wait_for_result, h]

/-- Claim C1: for every dispatch, `wait_for_result` consumes at most one
ResultMessage, namely one whose correlation id equals the dispatch's
correlation id: if it returns a message `r`, then `r.correlation_id` is
the requested id and the final queue holds exactly the initial messages
minus `r` (every non-matching message it popped was pushed back onto the
same result queue); if it returns nothing, the final queue is a
permutation of the initial queue and nothing was consumed. -/
theorem C1_correlation_requeue_discipline (fuel : Nat) (cid : String)
    (q : List ResultMessage) :
    (∀ r q', wait_for_result fuel cid q = (some r, q') →
      r.correlation_id = cid ∧ q.Perm (r :: q')) ∧
    (∀ q', wait_for_result fuel cid q = (none, q') → q.Perm q') := by
  induction fuel generalizing q with
  | zero =>
    refine ⟨fun r q' h => ?_, fun q' h => ?_⟩
    · simp [wait_for_result] at h
    · simp only [wait_for_result, Prod.mk.injEq] at h
      rw [h.2]
  | succ n ih =>
    refine ⟨fun r q' h => ?_, fun q' h => ?_⟩
    · rcases hb : brpop q with _ | ⟨r0, rest⟩
      · rw [wait_for_result_succ_empty n cid q hb] at h
        exact (ih q).1 r q' h
      · rw [wait_for_result_succ_pop n cid q rest r0 hb] at h
        by_cases hc : r0.correlation_id = cid
        · rw [if_pos hc] at h
          simp only [Prod.mk.injEq, Option.some.injEq] at h
          obtain ⟨h1, h2⟩ := h
          subst h1; subst h2
          exact ⟨hc, brpop_perm q r0 rest hb⟩
        · rw [if_neg hc] at h
          have hperm := brpop_perm q r0 rest hb
          have hrec := (ih (lpush r0 rest)).1 r q' h
          exact ⟨hrec.1, hperm.trans hrec.2⟩
    · rcases hb : brpop q with _ | ⟨r0, rest⟩
      · rw [wait_for_result_succ_empty n cid q hb] at h
        exact (ih q).2 q' h
      · rw [wait_for_result_succ_pop n cid q rest r0 hb] at h
        by_cases hc : r0.correlation_id = cid
        · rw [if_pos hc] at h; simp at h
        · rw [if_neg hc] at h
          have hperm := brpop_perm q r0 rest hb
          exact hperm.trans ((ih (lpush r0 rest)).2 q' h)

/-- A result addressed to this dispatcher (correlation id `"c1"`). -/
def sampleResultC1 : ResultMessage :=
  { task_id := "t1", correlation_id := "c1", status := "success",
    result := some "4", timestamp := 0 }

/-- A result addressed to a different concurrent dispatcher. -/
def sampleResultC2 : ResultMessage :=
  { task_id := "t2", correlation_id := "c2", status := "success",
    result := some "5", timestamp := 0 }

/-- Claim C1 witness: on the concrete queue `[c1-result, c2-result]` the
wait pops the non-matching `c2` result first, requeues it, and consumes
exactly the `c1` result. -/
theorem C1_witness :
    sampleResultC1.correlation_id = "c1" ∧
      [sampleResultC1, sampleResultC2].Perm
        (sampleResultC1 :: [sampleResultC2]) :=
  (C1_correlation_requeue_discipline 3 "c1"
    [sampleResultC1, sampleResultC2]).1 sampleResultC1 [sampleResultC2]
    (by decide)

/-- Claim C2 counterexample: when the deadline expires with no matching
result (here: an empty result queue and an expired poll budget), the
dispatcher receives no ResultMessage at all — `wait_for_result` returns
`none` — so no ResultMessage with status `"timeout"` is synthesised; the
caller of the dispatch meta-tool gets a plain `"Timeout: ..."`
observation string instead. -/
theorem C2_counterexample :
    (wait_for_result 5 "c1" []).1 = none ∧
      dispatch_render_result "calculator_agent" 30 none =
        "Timeout: No result received from calculator_agent within 30 seconds" := by
  constructor
  · rfl
  · rfl

/-- Claim C2 (amended): a dispatch timeout is not silent, but no
ResultMessage is synthesised for it.  With the deadline expired,
`wait_for_result` returns `none` and leaves the queue unchanged; the
dispatch meta-tool maps `none` to an explicit `"Timeout: ..."` string
for its caller, and that string is distinct from the rendering of any
ResultMessage actually received. -/
theorem C2_timeout_reported_as_string (p : String) (t : Nat) :
    (∀ cid q, wait_for_result 0 cid q = (none, q)) ∧
      dispatch_render_result p t none =
        ("Timeout: No result received from " ++ p ++ " within " ++
          toString t ++ " seconds") ∧
      (∀ r : ResultMessage,
        dispatch_render_result p t (some r) ≠ dispatch_render_result p t none) := by
  refine ⟨fun cid q => rfl, rfl, fun r heq => ?_⟩
  simp only [dispatch_render_result] at heq
  by_cases hs : r.status = "success"
  · rw [if_pos hs] at heq
    have hd := congrArg String.data heq
    simp [String.data_append] at hd
  · rw [if_neg hs] at heq
    have hd := congrArg String.data heq
    simp [String.data_append] at hd

/-- Claim C2 witness: a concrete received result renders differently
from the timeout report. -/
theorem C2_string_witness :
    dispatch_render_result "calculator_agent" 30 (some sampleResultC1) ≠
      dispatch_render_result "calculator_agent" 30 none :=
  (C2_timeout_reported_as_string "calculator_agent" 30).2.2 sampleResultC1

/-- Claim C9 counterexample: the queue keys carry a `raid:` prefix, so
they are not exactly `tasks:<p>` / `results:<p>`. -/
theorem C9_counterexample :
    get_task_queue_name "calculator_agent" ≠ "tasks:calculator_agent" ∧
      get_result_queue_name "calculator_agent" ≠ "results:calculator_agent" := by
  constructor
  · decide
  · decide

theorem brpop_append_singleton {α} (q : List α) (m : α) :
    brpop (q ++ [m]) = some (m, q) := by
  induction q with
  | nil => rfl
  | cons x xs ih => simp [brpop, ih]

/-- Claim C9 (amended): for every profile name `p` the dispatcher and
worker use queue key exactly `raid:tasks:<p>` for the task queue and
exactly `raid:results:<p>` for the result queue, with LPUSH producers
(prepend at the head) and BRPOP consumers (remove at the tail,
first-in-first-out). -/
theorem C9_queue_keys (p : String) :
    get_task_queue_name p = "raid:tasks:" ++ p ∧
      get_result_queue_name p = "raid:results:" ++ p ∧
      (∀ (m : ResultMessage) q, lpush m q = m :: q) ∧
      (∀ (m : ResultMessage) q, brpop (q ++ [m]) = some (m, q)) :=
  ⟨rfl, rfl, fun _ _ => rfl, fun m q => brpop_append_singleton q m⟩

/-! ## Observation truncation (`sub_agent/react_engine.py`, `process_task`)

`max_obs_length = 15000`, `half_len = max_obs_length // 2 = 7500`;
an observation longer than the cap is replaced by
`observation[:7500] + "\n\n... [OUTPUT TRUNCATED] ...\n\n" + observation[-7500:]`. -/

/-- The explicit truncation marker inserted between the two halves. -/
def truncationMarker : String := "\n\n... [OUTPUT TRUNCATED] ...\n\n"

/-- Python slice `s[:n]`. -/
def strTake (s : String) (n : Nat) : String := ⟨s.data.take n⟩

/-- Python slice `s[-n:]` (for `n ≤ len(s)`, the last `n` characters). -/
def strTakeLast (s : String) (n : Nat) : String := ⟨s.data.drop (s.data.length - n)⟩

/-- Python `len(s)` (number of code points). -/
theorem strLength_eq_data (s : String) : s.length = s.data.length := rfl

/-- Observation truncation as performed inline by
`SubAgentReActEngine.process_task`. -/
def truncate_observation (observation : String) : String :=
  if observation.length > 15000 then
    strTake observation 7500 ++ truncationMarker ++ strTakeLast observation 7500
  else observation

/-- Claim C8: an observation of length at most 15000 (in particular
exactly 15000) is attached unmodified, and an observation longer than
15000 is replaced by its first 7500 characters, the explicit truncation
marker, and its last 7500 characters. -/
theorem C8_observation_truncation (observation : String) :
    (observation.length ≤ 15000 → truncate_observation observation = observation) ∧
    (observation.length > 15000 →
      truncate_observation observation =
        strTake observation 7500 ++ truncationMarker ++
          strTakeLast observation 7500 ∧
      (strTake observation 7500).length = 7500 ∧
      (strTakeLast observation 7500).length = 7500) := by
  constructor
  · intro h
    simp only [truncate_observation, if_neg (by omega : ¬ observation.length > 15000)]
  · intro h
    refine ⟨by simp only [truncate_observation, if_pos h], ?_, ?_⟩
    · show (observation.data.take 7500).length = 7500
      rw [List.length_take]
      have : observation.data.length = observation.length := rfl
      omega
    · show (observation.data.drop (observation.data.length - 7500)).length = 7500
      rw [List.length_drop]
      have : observation.data.length = observation.length := rfl
      omega

/-- A string of length 15001 used to exercise the truncation branch. -/
def longObservation : String := ⟨List.replicate 15001 'a'⟩

/-- Claim C8 witness: a 20-character observation is attached unmodified,
and the 15001-character observation is truncated into a
7500 + marker + 7500 shape. -/
theorem C8_witness :
    truncate_observation "short observation ok" = "short observation ok" ∧
      truncate_observation longObservation =
        strTake longObservation 7500 ++ truncationMarker ++
          strTakeLast longObservation 7500 := by
  constructor
  · exact (C8_observation_truncation "short observation ok").1 (by decide)
  · exact ((C8_observation_truncation longObservation).2 (by
      show (String.mk (List.replicate 15001 'a')).length > 15000
      show (List.replicate 15001 'a').length > 15000
      rw [List.length_replicate]
      omega)).1

/-! ## Control-agent ReAct engine (`control_agent/react_engine.py`)

The LLM backend and the non-terminating meta-tools (discover, dispatch,
create) are external effects; they appear as oracles giving one parsed
response / one observation string per step number.  The two conclude
meta-tools are deterministic and embedded directly. -/

/-- Python `str.lower` on one character (ASCII part; Python's version is
unicode-aware, but only ASCII text is exercised by the claims). -/
def pyCharLower (c : Char) : Char :=
  if 'A' ≤ c && c ≤ 'Z' then Char.ofNat (c.toNat + 32) else c

/-- Python `s.lower()` (ASCII part). -/
def pyLower (s : String) : String := ⟨s.data.map pyCharLower⟩

/-- Python `\s` (ASCII part): the whitespace class used by `str.strip`
and the regex patterns below. -/
def pyIsSpace (c : Char) : Bool :=
  c = ' ' || c = '\t' || c = '\n' || c = '\x0d' ||
    c = Char.ofNat 11 || c = Char.ofNat 12

/-- Python `s.strip()` (ASCII whitespace; the unicode extras are not
exercised here). -/
def pyStrip (s : String) : String :=
  ⟨((s.data.dropWhile pyIsSpace).reverse.dropWhile pyIsSpace).reverse⟩

/-- Scan for the regex `\d+\s*[×*x]\s*\d+` anchored at the head of a
character list.  The three character classes are disjoint, so the greedy
left-to-right scan is equivalent to the backtracking search.
(`Char.isDigit` is the ASCII part of Python's unicode-aware `\d`.) -/
def mulPatternAt : List Char → Bool
  | [] => false
  | c :: rest =>
    c.isDigit &&
      (match (rest.dropWhile Char.isDigit).dropWhile pyIsSpace with
       | o :: r3 =>
         (o = '×' || o = '*' || o = 'x') &&
           (match r3.dropWhile pyIsSpace with
            | d :: _ => d.isDigit
            | [] => false)
       | [] => false)

/-- Python `re.search(r'\d+\s*[×*x]\s*\d+', s)` as a boolean. -/
def containsMulPattern (s : String) : Bool :=
  s.data.tails.any mulPatternAt

/-- Scan for the regex `\d+\s*=\s*\$?\d+` anchored at the head of a
character list. -/
def eqPatternAt : List Char → Bool
  | [] => false
  | c :: rest =>
    c.isDigit &&
      (match (rest.dropWhile Char.isDigit).dropWhile pyIsSpace with
       | '=' :: r3 =>
         (match r3.dropWhile pyIsSpace with
          | '$' :: r5 =>
            (match r5 with
             | d :: _ => d.isDigit
             | [] => false)
          | d :: _ => d.isDigit
          | [] => false)
       | _ => false)

/-- Python `re.search(r'\d+\s*=\s*\$?\d+', s)` as a boolean. -/
def containsEqPattern (s : String) : Bool :=
  s.data.tails.any eqPatternAt

/-- `ReActEngine._is_direct_answer`: does the raw model text look like a
direct numeric / currency answer?  (Lean's `Char.toLower` is the ASCII
part of Python's `str.lower`.) -/
def is_direct_answer (content : String) : Bool :=
  let content_lower := pyStrip (pyLower content)
  (["$", "tip", "percent", "%", "="].any fun p => strContains content_lower p) ||
    (["the answer is", "result:", "solution:"].any fun w =>
      strStartsWith content_lower w) ||
    containsMulPattern content || containsEqPattern content

/-- `ReActEngine._needs_more_info`: does the raw model text look like a
request for clarification? -/
def needs_more_info (content : String) : Bool :=
  let content_lower := pyStrip (pyLower content)
  ["?", "what", "which", "how", "need to know", "clarify", "specify"].any
    fun i => strContains content_lower i

/-- An action `{tool, parameters}`; the parameter values exercised by the
spec's claims are strings, so the `Dict[str, Any]` payload is modelled as
a string-to-string association list. -/
structure ActionDict where
  tool : String
  parameters : List (String × String)
deriving DecidableEq, Repr

/-- The outcome of `_parse_react_response`: a thought and an optional
action. -/
structure ParsedResponse where
  thought : String
  action : Option ActionDict
deriving DecidableEq, Repr

/-- The plain-text fallback branch of `ReActEngine._parse_react_response`
(control flavour), applied when no JSON could be extracted. -/
def parse_react_fallback (content : String) : ParsedResponse :=
  if is_direct_answer content then
    { thought := "The model provided a direct answer: " ++ content,
      action := some ⟨"conclude_task_success", [("final_summary", pyStrip content)]⟩ }
  else if needs_more_info content then
    { thought := "Need to gather more information: " ++ content,
      action := some ⟨"discover_sub_agent_profiles", []⟩ }
  else
    { thought := pyStrip content,
      action := some ⟨"discover_sub_agent_profiles", []⟩ }

/-- `ReActEngine._parse_react_response`.  The three JSON extraction
attempts (strict `json.loads`, fenced ```json block, first `{...}` span)
run in Python's `json`/`re` standard libraries; their combined outcome is
passed in as `jsonParsed` (`none` exactly when all three fail), and on
failure the tolerant fallback above is applied. -/
def parse_react_response (jsonParsed : Option ParsedResponse)
    (content : String) : ParsedResponse :=
  match jsonParsed with
  | some p => p
  | none => parse_react_fallback content

/-- Python `kwargs.get(k)` over the modelled parameter dict. -/
def lookupParam (params : List (String × String)) (k : String) : Option String :=
  (params.find? (fun p => p.1 = k)).map (·.2)

/-- `ConcludeTaskSuccessTool.execute`. -/
def conclude_success_observation (params : List (String × String)) : String :=
  "TASK_COMPLETED_SUCCESSFULLY: " ++
    (lookupParam params "final_summary").getD "Task completed successfully."

/-- `ConcludeTaskFailureTool.execute`. -/
def conclude_failure_observation (params : List (String × String)) : String :=
  "TASK_FAILED: " ++
    (lookupParam params "reason").getD "Task failed for unknown reason."

/-- `ReActEngine._execute_action`: the two conclude meta-tools are
deterministic; every other meta-tool's observation (including error
strings for unknown tools) comes from the environment, modelled by the
`toolOutput` oracle. -/
def execute_action (toolOutput : Nat → String) (n : Nat)
    (a : ActionDict) : String :=
  if a.tool = "conclude_task_success" then
    conclude_success_observation a.parameters
  else if a.tool = "conclude_task_failure" then
    conclude_failure_observation a.parameters
  else toolOutput n

/-- `ReActEngine._is_task_concluded`. -/
def is_task_concluded (observation : String) : Bool :=
  strContains observation "TASK_COMPLETED_SUCCESSFULLY" ||
    strContains observation "TASK_FAILED"

structure ReActStep where
  step_number : Nat
  thought : String
  action : Option ActionDict
  observation : Option String
deriving DecidableEq, Repr

structure TaskContext where
  task_id : String
  user_goal : String
  steps : List ReActStep
  status : String
  final_result : Option String
deriving DecidableEq, Repr

/-- `TaskContext.create`. -/
def TaskContext.create (task_id user_goal : String) : TaskContext :=
  ⟨task_id, user_goal, [], "in_progress", none⟩

/-- `TaskContext.add_step` (append-only). -/
def TaskContext.add_step (c : TaskContext) (s : ReActStep) : TaskContext :=
  { c with steps := c.steps ++ [s] }

/-- `TaskContext.complete_success`. -/
def TaskContext.complete_success (c : TaskContext) (result : String) : TaskContext :=
  { c with status := "completed", final_result := some result }

/-- `TaskContext.complete_failure`. -/
def TaskContext.complete_failure (c : TaskContext) (reason : String) : TaskContext :=
  { c with status := "failed", final_result := some reason }

/-- The `for step_num in range(1, max_steps + 1)` loop of
`ReActEngine.process_goal`.  `gen n` is the parsed outcome of
`_generate_thought_and_action` at step `n` (the oracle also covers the
engine's own exception handler, which yields a `conclude_task_failure`
action).  Python mutates the step after appending it; the embedding
appends the finished step, which yields the same context. -/
def process_goal_loop (gen : Nat → ParsedResponse) (toolOutput : Nat → String) :
    Nat → Nat → TaskContext → TaskContext
  | 0, _, ctx => ctx
  | remaining + 1, step_num, ctx =>
    let g := gen step_num
    match g.action with
    | none =>
      (ctx.add_step ⟨step_num, g.thought, none, none⟩).complete_failure
        "Failed to generate valid action"
    | some a =>
      let obs := execute_action toolOutput step_num a
      let ctx' := ctx.add_step ⟨step_num, g.thought, some a, some obs⟩
      if is_task_concluded obs then
        if strContains obs "TASK_COMPLETED_SUCCESSFULLY" then
          ctx'.complete_success (strReplace obs "TASK_COMPLETED_SUCCESSFULLY: " "")
        else
          ctx'.complete_failure (strReplace obs "TASK_FAILED: " "")
      else
        process_goal_loop gen toolOutput remaining (step_num + 1) ctx'

/-- `ReActEngine.process_goal`: run the loop (`remaining` iterations
left, i.e. `for step_num in range(1, max_steps + 1)`) from step 1 on a
fresh context; if the loop ends with the context still in progress, fail
it with the max-steps reason. -/
def process_goal (gen : Nat → ParsedResponse) (toolOutput : Nat → String)
    (max_steps : Nat) (user_goal task_id : String) : TaskContext :=
  let ctx := TaskContext.create task_id user_goal
  let ctx := process_goal_loop gen toolOutput max_steps 1 ctx
  if ctx.status = "in_progress" then
    ctx.complete_failure
      ("Maximum steps (" ++ toString max_steps ++ ") reached without completion")
  else ctx

/-- Claim C7: when no JSON can be extracted from a control-flavour model
response the engine synthesises a step: a `conclude_task_success` action
carrying the (stripped) raw text when the text matches the direct
numeric/currency-answer patterns or starts with a phrase like "the
answer is"; a discover-profiles action when it matches the
clarification-seeking patterns; and otherwise a discover-profiles action
with the raw text as the thought.  In particular the non-JSON direct
answer `"The tip is $12.75."` ends the context `completed` with that
text as final result. -/
theorem C7_parse_fallback_spec :
    (∀ c, parse_react_response none c = parse_react_fallback c) ∧
    (∀ c, is_direct_answer c = true →
      parse_react_fallback c =
        { thought := "The model provided a direct answer: " ++ c,
          action := some ⟨"conclude_task_success",
            [("final_summary", pyStrip c)]⟩ }) ∧
    (∀ c, is_direct_answer c = false → needs_more_info c = true →
      parse_react_fallback c =
        { thought := "Need to gather more information: " ++ c,
          action := some ⟨"discover_sub_agent_profiles", []⟩ }) ∧
    (∀ c, is_direct_answer c = false → needs_more_info c = false →
      parse_react_fallback c =
        { thought := pyStrip c,
          action := some ⟨"discover_sub_agent_profiles", []⟩ }) ∧
    ((process_goal (fun _ => parse_react_response none "The tip is $12.75.")
        (fun _ => "") 10 "Compute the tip" "t1").status = "completed" ∧
      (process_goal (fun _ => parse_react_response none "The tip is $12.75.")
        (fun _ => "") 10 "Compute the tip" "t1").final_result =
        some "The tip is $12.75.") := by
  refine ⟨fun c => rfl, fun c h => ?_, fun c h1 h2 => ?_, fun c h1 h2 => ?_, ?_, ?_⟩
  · simp [parse_react_fallback, h]
  · simp [parse_react_fallback, h1, h2]
  · simp [parse_react_fallback, h1, h2]
  · decide
  · decide

/-- Claim C7 witness: the S6 text is classified as a direct answer and
yields the synthesised `conclude_task_success` step. -/
theorem C7_witness :
    parse_react_fallback "The tip is $12.75." =
      { thought := "The model provided a direct answer: The tip is $12.75.",
        action := some ⟨"conclude_task_success",
          [("final_summary", pyStrip "The tip is $12.75.")]⟩ } :=
  C7_parse_fallback_spec.2.1 "The tip is $12.75." (by decide)

/-! ## Sub-agent ReAct engine (`sub_agent/react_engine.py`)

`SubAgentReActEngine.process_task` runs the worker-flavour loop and
always converts the final context into a `ResultMessage`.  The LLM call
(`llm_backend.generate`) sits outside the parse `try`, so an exception
from it escapes `_generate_thought_and_action` and is caught by the
outer handler of `process_task`; the per-step oracle therefore has a
`raise` outcome.  Parse failures are caught inside
`_generate_thought_and_action` and produce an action-less step, covered
by the `step` outcome with `action = none`. -/

structure SubAgentReActStep where
  step_number : Nat
  thought : String
  action : Option ActionDict
  observation : Option String
deriving DecidableEq, Repr

structure SubAgentTaskContext where
  task_id : String
  task_prompt : String
  steps : List SubAgentReActStep
  status : String
  final_result : Option String
deriving DecidableEq, Repr

/-- `SubAgentTaskContext.create`. -/
def SubAgentTaskContext.create (task_id task_prompt : String) :
    SubAgentTaskContext :=
  ⟨task_id, task_prompt, [], "in_progress", none⟩

/-- `SubAgentTaskContext.add_step` (append-only). -/
def SubAgentTaskContext.add_step (c : SubAgentTaskContext)
    (s : SubAgentReActStep) : SubAgentTaskContext :=
  { c with steps := c.steps ++ [s] }

/-- `SubAgentTaskContext.complete_success`. -/
def SubAgentTaskContext.complete_success (c : SubAgentTaskContext)
    (result : String) : SubAgentTaskContext :=
  { c with status := "completed", final_result := some result }

/-- `SubAgentTaskContext.complete_failure`. -/
def SubAgentTaskContext.complete_failure (c : SubAgentTaskContext)
    (reason : String) : SubAgentTaskContext :=
  { c with status := "failed", final_result := some reason }

/-- Outcome of `_generate_thought_and_action` at one step: a step with a
thought and optional action (a parsed `final_answer` is encapsulated as
the action `{tool := "final_answer", parameters := {answer := ...}}` by
the source), or an exception escaping from the LLM invocation. -/
inductive SubAgentGen where
  | step (thought : String) (action : Option ActionDict)
  | raise (msg : String)
deriving DecidableEq, Repr

/-- `SubAgentReActEngine._is_final_answer`. -/
def is_final_answer (action : Option ActionDict) : Bool :=
  match action with
  | some a => a.tool = "final_answer"
  | none => false

/-- `SubAgentReActEngine._extract_final_answer`. -/
def extract_final_answer (action : Option ActionDict) : String :=
  match action with
  | some a =>
    if a.tool = "final_answer" then
      (lookupParam a.parameters "answer").getD "No answer provided."
    else ""
  | none => ""

/-- `SubAgentReActEngine._execute_tool_action`: `final_answer` and the
missing-name case return fixed strings; `ToolRegistry.get_tool` raises
`ValueError` for an unregistered name (`Except.error`, caught by
`process_task`'s outer handler); a registered tool's own execution is an
external effect (`toolExec` oracle) whose exceptions are converted to an
`"Error executing tool ..."` observation. -/
def execute_tool_action (toolExec : Nat → Except String String)
    (registry : List String) (n : Nat) (a : ActionDict) :
    Except String String :=
  if a.tool = "final_answer" then
    .ok ("Task marked as complete with final answer: " ++
      renderOpt (lookupParam a.parameters "answer"))
  else if a.tool = "" then
    .ok "Error: No tool name provided in action"
  else if registry.contains a.tool then
    match toolExec n with
    | .ok s => .ok s
    | .error e => .ok ("Error executing tool '" ++ a.tool ++ "': " ++ e)
  else
    .error ("Tool '" ++ a.tool ++ "' not found")

/-- The `for step_num in range(1, max_steps + 1)` loop of
`SubAgentReActEngine.process_task` (`remaining` iterations left).
Python mutates the appended step to attach the observation; the
embedding appends the finished step, which yields the same context.
Exceptions (from the LLM call or from tool lookup) are the outer
handler's `complete_failure(str(e))`. -/
def process_task_loop (gen : Nat → SubAgentGen)
    (toolExec : Nat → Except String String) (registry : List String) :
    Nat → Nat → SubAgentTaskContext → SubAgentTaskContext
  | 0, _, ctx => ctx
  | remaining + 1, step_num, ctx =>
    match gen step_num with
    | .raise msg => ctx.complete_failure msg
    | .step thought actionOpt =>
      if is_final_answer actionOpt then
        (ctx.add_step ⟨step_num, thought, actionOpt, none⟩).complete_success
          (extract_final_answer actionOpt)
      else
        match actionOpt with
        | none =>
          (ctx.add_step ⟨step_num, thought, none, none⟩).complete_failure
            "Failed to generate valid action"
        | some a =>
          match execute_tool_action toolExec registry step_num a with
          | .error e =>
            (ctx.add_step ⟨step_num, thought, some a, none⟩).complete_failure e
          | .ok observation =>
            process_task_loop gen toolExec registry remaining (step_num + 1)
              (ctx.add_step
                ⟨step_num, thought, some a, some (truncate_observation observation)⟩)

/-- The final context of `SubAgentReActEngine.process_task`: run the loop
from step 1 and fail a still-in-progress context with the max-steps
reason. -/
def process_task_context (gen : Nat → SubAgentGen)
    (toolExec : Nat → Except String String) (registry : List String)
    (max_steps : Nat) (task : TaskMessage) : SubAgentTaskContext :=
  let ctx := SubAgentTaskContext.create task.task_id task.prompt
  let ctx := process_task_loop gen toolExec registry max_steps 1 ctx
  if ctx.status = "in_progress" then
    ctx.complete_failure "Reached max steps without completing the task"
  else ctx

/-- `SubAgentReActEngine.process_task`: convert the final context into a
`ResultMessage`.  The construction `ResultMessage(..., correlation_id =
task.correlation_id)` is pydantic-validated; a task without a
correlation id makes it raise, outside the loop's exception handler. -/
def process_task (gen : Nat → SubAgentGen)
    (toolExec : Nat → Except String String) (registry : List String)
    (max_steps : Nat) (task : TaskMessage) : Except String ResultMessage :=
  let ctx := process_task_context gen toolExec registry max_steps task
  match task.correlation_id with
  | none =>
    .error "ValidationError: correlation_id is required on ResultMessage"
  | some cid =>
    if ctx.status = "completed" then
      .ok (ResultMessage.mkSuccess ctx.task_id cid
        (pyStrOr ctx.final_result "Completed"))
    else
      .ok (ResultMessage.create_error ctx.task_id cid
        (pyStrOr ctx.final_result "Unknown error"))

/-! ## Step-cap and result-construction lemmas -/

theorem add_step_status (c : TaskContext) (s : ReActStep) :
    (c.add_step s).status = c.status := rfl

theorem process_goal_loop_in_progress (gen : Nat → ParsedResponse)
    (toolOutput : Nat → String) :
    ∀ remaining step_num (ctx : TaskContext),
      ctx.status = "in_progress" →
      (∀ n, step_num ≤ n → n < step_num + remaining →
        ∃ a, (gen n).action = some a ∧
          is_task_concluded (execute_action toolOutput n a) = false) →
      (process_goal_loop gen toolOutput remaining step_num ctx).status =
        "in_progress" := by
  intro remaining
  induction remaining with
  | zero => intro step_num ctx hctx _; exact hctx
  | succ r ih =>
    intro step_num ctx hctx hgen
    obtain ⟨a, ha, hc⟩ := hgen step_num (le_refl _) (by omega)
    simp only [process_goal_loop, ha, hc, Bool.false_eq_true, if_false]
    exact ih (step_num + 1) _ hctx (fun n h1 h2 => hgen n (by omega) (by omega))

theorem sub_add_step_status (c : SubAgentTaskContext) (s : SubAgentReActStep) :
    (c.add_step s).status = c.status := rfl

theorem process_task_loop_in_progress (gen : Nat → SubAgentGen)
    (toolExec : Nat → Except String String) (registry : List String) :
    ∀ remaining step_num (ctx : SubAgentTaskContext),
      ctx.status = "in_progress" →
      (∀ n, step_num ≤ n → n < step_num + remaining →
        ∃ t a, gen n = SubAgentGen.step t (some a) ∧
          a.tool ≠ "final_answer" ∧
          ∃ obs, execute_tool_action toolExec registry n a = .ok obs) →
      (process_task_loop gen toolExec registry remaining step_num ctx).status =
        "in_progress" := by
  intro remaining
  induction remaining with
  | zero => intro step_num ctx hctx _; exact hctx
  | succ r ih =>
    intro step_num ctx hctx hgen
    obtain ⟨t, a, hg, htool, obs, hexec⟩ := hgen step_num (le_refl _) (by omega)
    have hfa : is_final_answer (some a) = false := by
      simp [is_final_answer, htool]
    simp only [process_task_loop, hg, hfa, Bool.false_eq_true, if_false, hexec]
    exact ih (step_num + 1) _ hctx (fun n h1 h2 => hgen n (by omega) (by omega))

/-- Claim C6 counterexample: a control run whose single step parses to a
thought without any action (legal JSON such as `{"thought": "..."}`) has
no terminal action within the step cap, yet the context fails with
reason `"Failed to generate valid action"` rather than with the
max-steps reason the claim requires. -/
theorem C6_counterexample :
    (process_goal (fun _ => ⟨"just a thought", none⟩) (fun _ => "") 1
        "goal" "tid").status = "failed" ∧
      (process_goal (fun _ => ⟨"just a thought", none⟩) (fun _ => "") 1
        "goal" "tid").final_result = some "Failed to generate valid action" ∧
      (∀ s ∈ (process_goal (fun _ => ⟨"just a thought", none⟩) (fun _ => "") 1
        "goal" "tid").steps, s.action = none) ∧
      (process_goal (fun _ => ⟨"just a thought", none⟩) (fun _ => "") 1
        "goal" "tid").final_result ≠
        some "Maximum steps (1) reached without completion" := by
  refine ⟨rfl, rfl, ?_, by decide⟩
  intro s hs
  simp only [process_goal, process_goal_loop] at hs
  simp only [TaskContext.create, TaskContext.add_step, TaskContext.complete_failure] at hs
  simp at hs
  rw [hs]

/-- Claim C6 (amended): in both reasoning engines, if every step inside
the cap yields an action and no terminal conclusion (no conclude marker
in a control observation; no `final_answer` action and no escaping
exception in a worker step), then after `max_steps` steps the context
ends `failed` with the engine's max-steps reason; in particular with
`max_steps = 0` the run executes zero steps and immediately fails with
that reason.  (A step yielding no action, or a step raising, instead
fails the context with that step's own reason, as the counterexample
shows.) -/
theorem C6_step_cap (gen : Nat → ParsedResponse) (toolOutput : Nat → String)
    (sgen : Nat → SubAgentGen) (toolExec : Nat → Except String String)
    (registry : List String) (max_steps : Nat) (goal tid : String)
    (task : TaskMessage) :
    ((∀ n, 1 ≤ n → n ≤ max_steps →
        ∃ a, (gen n).action = some a ∧
          is_task_concluded (execute_action toolOutput n a) = false) →
      (process_goal gen toolOutput max_steps goal tid).status = "failed" ∧
        (process_goal gen toolOutput max_steps goal tid).final_result =
          some ("Maximum steps (" ++ toString max_steps ++
            ") reached without completion")) ∧
    ((process_goal gen toolOutput 0 goal tid).steps = [] ∧
      (process_goal gen toolOutput 0 goal tid).status = "failed" ∧
      (process_goal gen toolOutput 0 goal tid).final_result =
        some "Maximum steps (0) reached without completion") ∧
    ((∀ n, 1 ≤ n → n ≤ max_steps →
        ∃ t a, sgen n = SubAgentGen.step t (some a) ∧
          a.tool ≠ "final_answer" ∧
          ∃ obs, execute_tool_action toolExec registry n a = .ok obs) →
      (process_task_context sgen toolExec registry max_steps task).status =
          "failed" ∧
        (process_task_context sgen toolExec registry max_steps task).final_result =
          some "Reached max steps without completing the task") ∧
    ((process_task_context sgen toolExec registry 0 task).steps = [] ∧
      (process_task_context sgen toolExec registry 0 task).status = "failed" ∧
      (process_task_context sgen toolExec registry 0 task).final_result =
        some "Reached max steps without completing the task") := by
  refine ⟨fun hgen => ?_, ⟨rfl, rfl, rfl⟩, fun hgen => ?_, ⟨rfl, rfl, rfl⟩⟩
  · have hloop := process_goal_loop_in_progress gen toolOutput max_steps 1
      (TaskContext.create tid goal) rfl
      (fun n h1 h2 => hgen n h1 (by omega))
    simp only [process_goal, hloop, if_pos]
    exact ⟨rfl, rfl⟩
  · have hloop := process_task_loop_in_progress sgen toolExec registry max_steps 1
      (SubAgentTaskContext.create task.task_id task.prompt) rfl
      (fun n h1 h2 => hgen n h1 (by omega))
    simp only [process_task_context, hloop, if_pos]
    exact ⟨rfl, rfl⟩

/-- Claim C6 witness: a concrete two-step control run of non-concluding
dispatch actions ends failed with the max-steps reason. -/
theorem C6_witness :
    (process_goal (fun _ => ⟨"think", some ⟨"dispatch_to_sub_agent", []⟩⟩)
        (fun _ => "dispatch output") 2 "goal" "tid").status = "failed" ∧
      (process_goal (fun _ => ⟨"think", some ⟨"dispatch_to_sub_agent", []⟩⟩)
        (fun _ => "dispatch output") 2 "goal" "tid").final_result =
        some "Maximum steps (2) reached without completion" := by
  have h := (C6_step_cap (fun _ => ⟨"think", some ⟨"dispatch_to_sub_agent", []⟩⟩)
    (fun _ => "dispatch output") (fun _ => SubAgentGen.raise "")
    (fun _ => Except.ok "") [] 2 "goal" "tid"
    ⟨"", "", "", [], none, 0⟩).1
    (fun n _ _ => ⟨⟨"dispatch_to_sub_agent", []⟩, rfl, rfl⟩)
  exact ⟨h.1, h.2.trans (by decide)⟩

theorem process_task_loop_task_id (gen : Nat → SubAgentGen)
    (toolExec : Nat → Except String String) (registry : List String) :
    ∀ remaining step_num (ctx : SubAgentTaskContext),
      (process_task_loop gen toolExec registry remaining step_num ctx).task_id =
        ctx.task_id := by
  intro remaining
  induction remaining with
  | zero => intro step_num ctx; rfl
  | succ r ih =>
    intro step_num ctx
    rw [process_task_loop]
    cases hg : gen step_num with
    | raise msg => rfl
    | step t ao =>
      by_cases hfa : is_final_answer ao = true
      · simp only [hfa, if_true]; rfl
      · simp only [hfa, Bool.false_eq_true, if_false]
        cases ao with
        | none => rfl
        | some a =>
          cases hexec : execute_tool_action toolExec registry step_num a with
          | error e => simp only [hexec]; rfl
          | ok obs =>
            simp only [hexec]
            exact ih (step_num + 1) _

theorem process_task_loop_completed_final_answer (gen : Nat → SubAgentGen)
    (toolExec : Nat → Except String String) (registry : List String) :
    ∀ remaining step_num (ctx : SubAgentTaskContext),
      ctx.status = "in_progress" →
      (process_task_loop gen toolExec registry remaining step_num ctx).status =
        "completed" →
      ∃ s a, (process_task_loop gen toolExec registry remaining step_num
          ctx).steps.getLast? = some s ∧
        s.action = some a ∧ a.tool = "final_answer" := by
  intro remaining
  induction remaining with
  | zero =>
    intro step_num ctx hctx hres
    rw [process_task_loop] at hres
    rw [hctx] at hres
    simp at hres
  | succ r ih =>
    intro step_num ctx hctx hres
    rw [process_task_loop] at hres ⊢
    revert hres
    cases hg : gen step_num with
    | raise msg =>
      intro hres
      simp [SubAgentTaskContext.complete_failure] at hres
    | step t ao =>
      intro hres
      by_cases hfa : is_final_answer ao = true
      · simp only [hfa, if_true]
        obtain ⟨a, hao⟩ : ∃ a, ao = some a ∧ a.tool = "final_answer" := by
          cases ao with
          | none => simp [is_final_answer] at hfa
          | some a => exact ⟨a, rfl, by simpa [is_final_answer] using hfa⟩
        refine ⟨⟨step_num, t, ao, none⟩, a, ?_, ?_, hao.2⟩
        · simp [SubAgentTaskContext.complete_success, SubAgentTaskContext.add_step,
            List.getLast?_concat]
        · exact hao.1
      · simp only [hfa, Bool.false_eq_true, if_false] at hres ⊢
        cases ao with
        | none => simp [SubAgentTaskContext.complete_failure] at hres
        | some a =>
          cases hexec : execute_tool_action toolExec registry step_num a with
          | error e =>
            simp only [hexec] at hres
            simp [SubAgentTaskContext.complete_failure] at hres
          | ok obs =>
            simp only [hexec] at hres ⊢
            exact ih (step_num + 1) _ hctx hres

/-- Task used by the C10 counterexample: its `correlation_id` is `None`,
which is legal for a `TaskMessage` on the wire. -/
def taskNoCid : TaskMessage :=
  { task_id := "t9", sub_agent_profile := "calculator_agent",
    prompt := "2+2", tools := ["calculator"], correlation_id := none,
    timestamp := 0 }

/-- Claim C10 counterexample: `process_task` does not always return a
ResultMessage — for a TaskMessage whose `correlation_id` is `None`, the
final `ResultMessage(...)` construction fails pydantic validation
(`ResultMessage.correlation_id` is a required `str`), outside the loop's
exception handler, so the call raises instead of returning. -/
theorem C10_counterexample :
    process_task (fun _ => SubAgentGen.step "th" none) (fun _ => Except.ok "")
        [] 1 taskNoCid =
      Except.error "ValidationError: correlation_id is required on ResultMessage" :=
  rfl

/-- Claim C10 (amended): for every TaskMessage whose `correlation_id` is
present, `process_task` returns a ResultMessage (exceptions inside the
loop are caught and become an error result); the returned message has
`task_id` equal to the task's `task_id` and `correlation_id` equal to
the task's correlation id; its status is `"success"` exactly when the
run completed — which only happens via a `final_answer` action — and
`"error"` in every other case; a worker never produces a ResultMessage
with status `"timeout"`. -/
theorem C10_result_shape (gen : Nat → SubAgentGen)
    (toolExec : Nat → Except String String) (registry : List String)
    (max_steps : Nat) (task : TaskMessage) (cid : String)
    (hcid : task.correlation_id = some cid) :
    ∃ r, process_task gen toolExec registry max_steps task = .ok r ∧
      r.task_id = task.task_id ∧
      r.correlation_id = cid ∧
      (r.status = "success" ∨ r.status = "error") ∧
      r.status ≠ "timeout" ∧
      (r.status = "success" ↔
        (process_task_context gen toolExec registry max_steps task).status =
          "completed") ∧
      ((process_task_context gen toolExec registry max_steps task).status =
          "completed" →
        ∃ s a, (process_task_context gen toolExec registry max_steps
            task).steps.getLast? = some s ∧
          s.action = some a ∧ a.tool = "final_answer") := by
  have htid : (process_task_context gen toolExec registry max_steps task).task_id =
      task.task_id := by
    simp only [process_task_context]
    split
    · exact process_task_loop_task_id gen toolExec registry max_steps 1 _
    · exact process_task_loop_task_id gen toolExec registry max_steps 1 _
  have hfa : (process_task_context gen toolExec registry max_steps task).status =
      "completed" →
      ∃ s a, (process_task_context gen toolExec registry max_steps
          task).steps.getLast? = some s ∧
        s.action = some a ∧ a.tool = "final_answer" := by
    intro hcomp
    simp only [process_task_context] at hcomp ⊢
    by_cases hip : (process_task_loop gen toolExec registry max_steps 1
        (SubAgentTaskContext.create task.task_id task.prompt)).status = "in_progress"
    · rw [if_pos hip] at hcomp
      simp [SubAgentTaskContext.complete_failure] at hcomp
    · rw [if_neg hip] at hcomp ⊢
      exact process_task_loop_completed_final_answer gen toolExec registry
        max_steps 1 _ rfl hcomp
  by_cases hcomp : (process_task_context gen toolExec registry max_steps
      task).status = "completed"
  · refine ⟨ResultMessage.mkSuccess
      (process_task_context gen toolExec registry max_steps task).task_id cid
      (pyStrOr (process_task_context gen toolExec registry max_steps
        task).final_result "Completed"), ?_, htid, rfl, Or.inl rfl,
      fun h => absurd h (show ¬ ("success" : String) = "timeout" by decide),
      Iff.intro (fun _ => hcomp) (fun _ => rfl), hfa⟩
    simp only [process_task, hcid]
    rw [if_pos hcomp]
  · refine ⟨ResultMessage.create_error
      (process_task_context gen toolExec registry max_steps task).task_id cid
      (pyStrOr (process_task_context gen toolExec registry max_steps
        task).final_result "Unknown error"), ?_, htid, rfl, Or.inr rfl,
      fun h => absurd h (show ¬ ("error" : String) = "timeout" by decide),
      Iff.intro (fun h => absurd h (show ¬ ("error" : String) = "success" by decide))
        (fun h => absurd h hcomp), hfa⟩
    simp only [process_task, hcid]
    rw [if_neg hcomp]

/-- Generator used by the C10 witness: the first step already answers. -/
def genFinalAnswer : Nat → SubAgentGen :=
  fun _ => SubAgentGen.step "done" (some ⟨"final_answer", [("answer", "42")]⟩)

/-- Task used by the C10 witness (correlation id present). -/
def taskWithCid : TaskMessage :=
  { task_id := "t5", sub_agent_profile := "calculator_agent",
    prompt := "6*7", tools := ["calculator"], correlation_id := some "c7",
    timestamp := 0 }

/-- Claim C10 witness: on a concrete task with a correlation id and a
first-step `final_answer`, the amended claim's conclusion holds. -/
theorem C10_witness :
    ∃ r, process_task genFinalAnswer (fun _ => Except.ok "") ["calculator"] 5
        taskWithCid = .ok r ∧
      r.task_id = taskWithCid.task_id ∧
      r.correlation_id = "c7" ∧
      (r.status = "success" ∨ r.status = "error") ∧
      r.status ≠ "timeout" ∧
      (r.status = "success" ↔
        (process_task_context genFinalAnswer (fun _ => Except.ok "")
          ["calculator"] 5 taskWithCid).status = "completed") ∧
      ((process_task_context genFinalAnswer (fun _ => Except.ok "")
          ["calculator"] 5 taskWithCid).status = "completed" →
        ∃ s a, (process_task_context genFinalAnswer (fun _ => Except.ok "")
            ["calculator"] 5 taskWithCid).steps.getLast? = some s ∧
          s.action = some a ∧ a.tool = "final_answer") :=
  C10_result_shape genFinalAnswer (fun _ => Except.ok "") ["calculator"] 5
    taskWithCid "c7" rfl

/-! ## Lifecycle manager (`src/raid/lifecycle/manager.py`)

`SubAgentLifecycleManager` keeps `agents : Dict[str, AgentInfo]`
(insertion-ordered, unique names), modelled as a list of records.
`datetime` timestamps are integers; the minute-based timeouts are passed
already converted to the same unit.  Profile loading (which supplies the
`is_persistent` / `exclude_from_count` flags, both defaulting to false
on any load failure) is external, so `register_agent` takes the flags
directly.  Container stop/remove calls are external too: a failing stop
marks the record `error`, but the record is deleted right after either
way, so `unregister_agent` reduces to removal. -/

inductive AgentState where
  | creating | starting | running | working | idle | stopping | stopped | error
deriving DecidableEq, Repr

structure AgentInfo where
  name : String
  state : AgentState
  container_id : Option String
  created_at : Int
  last_task_at : Option Int
  last_heartbeat_at : Int
  task_count : Nat
  error_count : Nat
  profile_name : String
  is_persistent : Bool
  exclude_from_count : Bool
deriving DecidableEq, Repr

/-- `AgentInfo.is_idle_too_long`. -/
def is_idle_too_long (now idle_timeout : Int) (a : AgentInfo) : Bool :=
  if a.state ≠ AgentState.idle then false
  else
    match a.last_task_at with
    | none => now - a.created_at > idle_timeout
    | some t => now - t > idle_timeout

/-- `AgentInfo.is_heartbeat_stale`. -/
def is_heartbeat_stale (now heartbeat_timeout : Int) (a : AgentInfo) : Bool :=
  now - a.last_heartbeat_at > heartbeat_timeout

/-- The manager's configuration: `max_dynamic_sub_agents` and the two
timeouts (already converted to the common time unit). -/
structure LifecycleConfig where
  max_agents : Nat
  idle_timeout : Int
  heartbeat_timeout : Int

/-- `len([a for a in self.agents.values() if not a.exclude_from_count])`. -/
def nonExcludedCount (st : List AgentInfo) : Nat :=
  (st.filter fun a => !a.exclude_from_count).length

/-- The record built by `register_agent`. -/
def mkAgentInfo (now : Int) (name cid pname : String) (pers excl : Bool) :
    AgentInfo :=
  { name := name, state := AgentState.running, container_id := some cid,
    created_at := now, last_task_at := none, last_heartbeat_at := now,
    task_count := 0, error_count := 0, profile_name := pname,
    is_persistent := pers, exclude_from_count := excl }

/-- `unregister_agent`: stop the container (external) and delete the
record; unknown names are ignored. -/
def unregister_agent (name : String) (st : List AgentInfo) :
    Bool × List AgentInfo :=
  if st.any (fun a => a.name == name) then
    (true, st.filter fun a => !(a.name == name))
  else (false, st)

/-- Apply `f` to the record of `name` (no-op for unknown names), as the
`mark_*` / heartbeat methods do. -/
def updateNamed (name : String) (f : AgentInfo → AgentInfo)
    (st : List AgentInfo) : List AgentInfo :=
  st.map fun a => if a.name == name then f a else a

/-- `update_agent_heartbeat`. -/
def update_agent_heartbeat (now : Int) (name : String) (st : List AgentInfo) :
    List AgentInfo :=
  updateNamed name (fun a => { a with last_heartbeat_at := now }) st

/-- `mark_agent_task_started` (via `AgentInfo.mark_task_started`). -/
def mark_agent_task_started (now : Int) (name : String) (st : List AgentInfo) :
    List AgentInfo :=
  updateNamed name (fun a =>
    { a with
      state := AgentState.working,
      last_task_at := some now,
      task_count := a.task_count + 1,
      last_heartbeat_at := now }) st

/-- `mark_agent_task_completed` (via `AgentInfo.mark_task_completed`). -/
def mark_agent_task_completed (now : Int) (name : String)
    (st : List AgentInfo) : List AgentInfo :=
  updateNamed name (fun a =>
    { a with state := AgentState.idle, last_heartbeat_at := now }) st

/-- `mark_agent_error` (via `AgentInfo.mark_error`). -/
def mark_agent_error (now : Int) (name : String) (st : List AgentInfo) :
    List AgentInfo :=
  updateNamed name (fun a =>
    { a with
      error_count := a.error_count + 1,
      state := AgentState.error,
      last_heartbeat_at := now }) st

/-- Agents selected by `_cleanup_stale_agents`: not persistent and with a
stale heartbeat. -/
def stale_selected (cfg : LifecycleConfig) (now : Int) (st : List AgentInfo) :
    List AgentInfo :=
  st.filter fun a =>
    !a.is_persistent && is_heartbeat_stale now cfg.heartbeat_timeout a

/-- `_cleanup_stale_agents`: unregister every selected agent. -/
def cleanup_stale_agents (cfg : LifecycleConfig) (now : Int)
    (st : List AgentInfo) : List AgentInfo :=
  (stale_selected cfg now st).foldl
    (fun acc a => (unregister_agent a.name acc).2) st

/-- Python's `last_task_at or created_at` sort key. -/
def activityKey (a : AgentInfo) : Int :=
  a.last_task_at.getD a.created_at

/-- Stable insertion (earlier elements stay before equal-key later
ones), matching Python's stable `sorted(..., key=...)`. -/
def insertByActivity (a : AgentInfo) : List AgentInfo → List AgentInfo
  | [] => [a]
  | b :: rest =>
    if activityKey a ≤ activityKey b then a :: b :: rest
    else b :: insertByActivity a rest

/-- `sorted(agents, key=lambda x: x.last_task_at or x.created_at)`. -/
def sortByActivity : List AgentInfo → List AgentInfo
  | [] => []
  | a :: rest => insertByActivity a (sortByActivity rest)

/-- Agents selected by `_cleanup_idle_agents`: the idle-timeout pass
plus, at capacity, the oldest-activity idle non-persistent non-excluded
agents needed to get below the maximum (deduplicated by name against the
first list). -/
def idle_selected (cfg : LifecycleConfig) (now : Int) (st : List AgentInfo) :
    List AgentInfo :=
  let idle1 := st.filter fun a =>
    !a.is_persistent && a.state == AgentState.idle &&
      is_idle_too_long now cfg.idle_timeout a
  let non_excluded := st.filter fun a => !a.exclude_from_count
  if cfg.max_agents ≤ non_excluded.length then
    let idle_by_activity := sortByActivity (st.filter fun a =>
      a.state == AgentState.idle && !a.is_persistent && !a.exclude_from_count)
    let agents_to_remove := non_excluded.length - cfg.max_agents + 1
    idle1 ++ (idle_by_activity.take agents_to_remove).filter
      (fun a => !(idle1.any fun b => b.name == a.name))
  else idle1

/-- `_cleanup_idle_agents`: unregister every selected agent. -/
def cleanup_idle_agents (cfg : LifecycleConfig) (now : Int)
    (st : List AgentInfo) : List AgentInfo :=
  (idle_selected cfg now st).foldl
    (fun acc a => (unregister_agent a.name acc).2) st

/-- `_cleanup_all_agents` (shutdown): stop and drop every non-persistent
agent. -/
def cleanup_all_agents (st : List AgentInfo) : List AgentInfo :=
  st.filter fun a => a.is_persistent

/-- `_update_container_states`: an agent whose container is reported not
running while the agent is in {running, working, idle}, or whose
inspection raises, is marked `error`. -/
def update_container_states (isRun : String → Except Unit Bool) (now : Int)
    (st : List AgentInfo) : List AgentInfo :=
  st.map fun a =>
    match a.container_id with
    | none => a
    | some cid =>
      match isRun cid with
      | .ok true => a
      | .ok false =>
        if a.state == AgentState.running || a.state == AgentState.working ||
            a.state == AgentState.idle then
          { a with
            error_count := a.error_count + 1,
            state := AgentState.error,
            last_heartbeat_at := now }
        else a
      | .error _ =>
        { a with
          error_count := a.error_count + 1,
          state := AgentState.error,
          last_heartbeat_at := now }

/-- `register_agent`: reject duplicate names; for a non-excluded worker
at capacity, run one idle-reap pass and re-count, rejecting (without
adding a record) if still at capacity; otherwise append the new record. -/
def register_agent (cfg : LifecycleConfig) (now : Int)
    (name cid pname : String) (pers excl : Bool) (st : List AgentInfo) :
    Bool × List AgentInfo :=
  if st.any (fun a => a.name == name) then (false, st)
  else if !excl && cfg.max_agents ≤ nonExcludedCount st then
    let st' := cleanup_idle_agents cfg now st
    if cfg.max_agents ≤ nonExcludedCount st' then (false, st')
    else (true, st' ++ [mkAgentInfo now name cid pname pers excl])
  else (true, st ++ [mkAgentInfo now name cid pname pers excl])

/-- One manager operation (the mutating public surface plus the monitor
passes); each carries the `datetime.utcnow()` values and external
observations it consumes. -/
inductive MOp where
  | register (now : Int) (name cid pname : String) (pers excl : Bool)
  | unregister (name : String)
  | heartbeat (now : Int) (name : String)
  | taskStarted (now : Int) (name : String)
  | taskCompleted (now : Int) (name : String)
  | markError (now : Int) (name : String)
  | cleanupStale (now : Int)
  | cleanupIdle (now : Int)
  | updateStates (now : Int) (isRun : String → Except Unit Bool)
  | cleanupAll

/-- Apply one operation to the agent map. -/
def applyOp (cfg : LifecycleConfig) (st : List AgentInfo) : MOp → List AgentInfo
  | .register now name cid pname pers excl =>
    (register_agent cfg now name cid pname pers excl st).2
  | .unregister name => (unregister_agent name st).2
  | .heartbeat now name => update_agent_heartbeat now name st
  | .taskStarted now name => mark_agent_task_started now name st
  | .taskCompleted now name => mark_agent_task_completed now name st
  | .markError now name => mark_agent_error now name st
  | .cleanupStale now => cleanup_stale_agents cfg now st
  | .cleanupIdle now => cleanup_idle_agents cfg now st
  | .updateStates now isRun => update_container_states isRun now st
  | .cleanupAll => cleanup_all_agents st

/-- Run a sequence of operations from the manager's initial empty map. -/
def run_ops (cfg : LifecycleConfig) (ops : List MOp) : List AgentInfo :=
  ops.foldl (applyOp cfg) []

/-! ## Lifecycle lemmas -/

theorem nonExcludedCount_eq_countP (st : List AgentInfo) :
    nonExcludedCount st = st.countP (fun a => !a.exclude_from_count) :=
  (List.countP_eq_length_filter _ _).symm

theorem nonExcludedCount_filter_le (p : AgentInfo → Bool) (st : List AgentInfo) :
    nonExcludedCount (st.filter p) ≤ nonExcludedCount st :=
  ((List.filter_sublist st).filter _).length_le

theorem unregister_count_le (name : String) (st : List AgentInfo) :
    nonExcludedCount (unregister_agent name st).2 ≤ nonExcludedCount st := by
  simp only [unregister_agent]
  split
  · exact nonExcludedCount_filter_le _ st
  · exact le_refl _

theorem foldl_unregister_count_le (sel : List AgentInfo) :
    ∀ st : List AgentInfo,
      nonExcludedCount (sel.foldl (fun acc a => (unregister_agent a.name acc).2) st) ≤
        nonExcludedCount st := by
  induction sel with
  | nil => intro st; exact le_refl _
  | cons b rest ih =>
    intro st
    exact le_trans (ih _) (unregister_count_le b.name st)

theorem unregister_mem (name : String) (st : List AgentInfo) (a : AgentInfo)
    (h : a ∈ (unregister_agent name st).2) : a ∈ st := by
  simp only [unregister_agent] at h
  split at h
  · exact (List.mem_filter.mp h).1
  · exact h

theorem foldl_unregister_mem (sel : List AgentInfo) :
    ∀ st a, a ∈ sel.foldl (fun acc x => (unregister_agent x.name acc).2) st →
      a ∈ st := by
  induction sel with
  | nil => intro st a h; exact h
  | cons b rest ih =>
    intro st a h
    exact unregister_mem b.name st a (ih _ a h)

theorem foldl_unregister_keeps (sel : List AgentInfo) :
    ∀ st a, a ∈ st → (∀ b ∈ sel, ¬ a.name = b.name) →
      a ∈ sel.foldl (fun acc x => (unregister_agent x.name acc).2) st := by
  induction sel with
  | nil => intro st a ha _; exact ha
  | cons b rest ih =>
    intro st a ha hne
    refine ih _ a ?_ (fun c hc => hne c (List.mem_cons_of_mem b hc))
    simp only [unregister_agent]
    split
    · rw [List.mem_filter]
      refine ⟨ha, ?_⟩
      simp only [Bool.not_eq_true', beq_eq_false_iff_ne, ne_eq]
      exact hne b (List.mem_cons_self b rest)
    · exact ha

theorem updateNamed_count (name : String) (f : AgentInfo → AgentInfo)
    (hf : ∀ a, (f a).exclude_from_count = a.exclude_from_count)
    (st : List AgentInfo) :
    nonExcludedCount (updateNamed name f st) = nonExcludedCount st := by
  rw [nonExcludedCount_eq_countP, nonExcludedCount_eq_countP, updateNamed,
    List.countP_map]
  refine List.countP_congr (fun a _ => ?_)
  simp only [Function.comp_apply]
  split
  · rw [hf]
  · rfl

theorem update_container_states_count (isRun : String → Except Unit Bool)
    (now : Int) (st : List AgentInfo) :
    nonExcludedCount (update_container_states isRun now st) =
      nonExcludedCount st := by
  rw [nonExcludedCount_eq_countP, nonExcludedCount_eq_countP,
    update_container_states, List.countP_map]
  refine List.countP_congr (fun a _ => ?_)
  simp only [Function.comp_apply]
  cases hc : a.container_id with
  | none => rfl
  | some cid =>
    simp only [hc]
    cases hr : isRun cid with
    | error e => rfl
    | ok b =>
      cases b
      · by_cases hs : (a.state == AgentState.running ||
            a.state == AgentState.working || a.state == AgentState.idle) = true
        · rw [if_pos hs]
        · rw [if_neg hs]
      · rfl

theorem nonExcludedCount_append_one (st : List AgentInfo) (a : AgentInfo) :
    nonExcludedCount (st ++ [a]) =
      nonExcludedCount st + (if a.exclude_from_count then 0 else 1) := by
  simp only [nonExcludedCount, List.filter_append, List.length_append]
  cases h : a.exclude_from_count <;> simp [List.filter, h]

theorem register_count_le (cfg : LifecycleConfig) (now : Int)
    (name cid pname : String) (pers excl : Bool) (st : List AgentInfo)
    (h : nonExcludedCount st ≤ cfg.max_agents) :
    nonExcludedCount (register_agent cfg now name cid pname pers excl st).2 ≤
      cfg.max_agents := by
  simp only [register_agent]
  by_cases hdup : st.any (fun a => a.name == name)
  · simp only [hdup, if_true]; exact h
  · simp only [hdup, Bool.false_eq_true, if_false]
    by_cases hcap : (!excl && decide (cfg.max_agents ≤ nonExcludedCount st)) = true
    · have hexcl : excl = false := by
        rcases Bool.and_eq_true .. |>.mp hcap with ⟨h1, _⟩
        simpa using h1
      simp only [hcap, if_true]
      by_cases h2 : cfg.max_agents ≤
          nonExcludedCount (cleanup_idle_agents cfg now st)
      · simp only [h2, if_true]
        exact le_trans (foldl_unregister_count_le _ st) h
      · simp only [h2, if_false]
        rw [nonExcludedCount_append_one]
        simp only [mkAgentInfo, hexcl, Bool.false_eq_true, if_false]
        omega
    · simp only [hcap, Bool.false_eq_true, if_false]
      rw [nonExcludedCount_append_one]
      cases hx : excl
      · have hle : ¬ cfg.max_agents ≤ nonExcludedCount st := by
          intro hle
          exact hcap (by simp [hx, hle])
        simp only [mkAgentInfo, Bool.false_eq_true, if_false]
        omega
      · simp only [mkAgentInfo, if_true]
        omega

theorem applyOp_count_le (cfg : LifecycleConfig) (st : List AgentInfo)
    (op : MOp) (h : nonExcludedCount st ≤ cfg.max_agents) :
    nonExcludedCount (applyOp cfg st op) ≤ cfg.max_agents := by
  cases op with
  | register now name cid pname pers excl =>
    exact register_count_le cfg now name cid pname pers excl st h
  | unregister name => exact le_trans (unregister_count_le name st) h
  | heartbeat now name =>
    simp only [applyOp, update_agent_heartbeat]
    exact le_trans (le_of_eq (updateNamed_count name
      (fun a => { a with last_heartbeat_at := now }) (fun a => rfl) st)) h
  | taskStarted now name =>
    simp only [applyOp, mark_agent_task_started]
    exact le_trans (le_of_eq (updateNamed_count name
      (fun a => { a with
        state := AgentState.working,
        last_task_at := some now,
        task_count := a.task_count + 1,
        last_heartbeat_at := now }) (fun a => rfl) st)) h
  | taskCompleted now name =>
    simp only [applyOp, mark_agent_task_completed]
    exact le_trans (le_of_eq (updateNamed_count name
      (fun a => { a with state := AgentState.idle, last_heartbeat_at := now })
      (fun a => rfl) st)) h
  | markError now name =>
    simp only [applyOp, mark_agent_error]
    exact le_trans (le_of_eq (updateNamed_count name
      (fun a => { a with
        error_count := a.error_count + 1,
        state := AgentState.error,
        last_heartbeat_at := now }) (fun a => rfl) st)) h
  | cleanupStale now =>
    exact le_trans (foldl_unregister_count_le _ st) h
  | cleanupIdle now =>
    exact le_trans (foldl_unregister_count_le _ st) h
  | updateStates now isRun =>
    simp only [applyOp]
    exact le_trans (le_of_eq (update_container_states_count _ _ _)) h
  | cleanupAll =>
    exact le_trans (nonExcludedCount_filter_le _ st) h

theorem foldl_applyOp_count_le (cfg : LifecycleConfig) :
    ∀ (ops : List MOp) (st : List AgentInfo),
      nonExcludedCount st ≤ cfg.max_agents →
      nonExcludedCount (ops.foldl (applyOp cfg) st) ≤ cfg.max_agents := by
  intro ops
  induction ops with
  | nil => intro st h; exact h
  | cons op rest ih =>
    intro st h
    exact ih _ (applyOp_count_le cfg st op h)

/-- Claim C3: (i) along every operation sequence from the empty map, the
number of registered workers with `exclude_from_count = false` stays at
most `max_agents`; (ii) a non-excluded registration that still finds the
(idle-reaped) map at capacity is rejected, leaves exactly the reaped map,
and adds no record for the new name; (iii) an excluded worker with a
fresh name is admitted regardless of the count. -/
theorem C3_capacity_bound (cfg : LifecycleConfig) :
    (∀ ops : List MOp, nonExcludedCount (run_ops cfg ops) ≤ cfg.max_agents) ∧
    (∀ (now : Int) (name cid pname : String) (pers : Bool)
        (st : List AgentInfo),
      (∀ a ∈ st, ¬ a.name = name) →
      cfg.max_agents ≤ nonExcludedCount (cleanup_idle_agents cfg now st) →
      register_agent cfg now name cid pname pers false st =
        (false, cleanup_idle_agents cfg now st) ∧
        ∀ a ∈ cleanup_idle_agents cfg now st, ¬ a.name = name) ∧
    (∀ (now : Int) (name cid pname : String) (pers : Bool)
        (st : List AgentInfo),
      (∀ a ∈ st, ¬ a.name = name) →
      (register_agent cfg now name cid pname pers true st).1 = true) := by
  refine ⟨fun ops => ?_, fun now name cid pname pers st hfresh hge => ?_,
    fun now name cid pname pers st hfresh => ?_⟩
  · exact foldl_applyOp_count_le cfg ops [] (by simp [nonExcludedCount])
  · have hdup : st.any (fun a => a.name == name) = false := by
      simp only [List.any_eq_false]
      intro a ha
      simpa using hfresh a ha
    have hinit : cfg.max_agents ≤ nonExcludedCount st :=
      le_trans hge (foldl_unregister_count_le _ st)
    constructor
    · have hc1 : (!false && decide (cfg.max_agents ≤ nonExcludedCount st)) =
          true := by simp [hinit]
      have hge' := hge
      simp only [cleanup_idle_agents] at hge'
      simp only [register_agent, hdup, Bool.false_eq_true, if_false, hc1,
        if_true, cleanup_idle_agents]
      rw [if_pos hge']
    · intro a ha
      exact hfresh a (foldl_unregister_mem _ st a ha)
  · have hdup : st.any (fun a => a.name == name) = false := by
      simp only [List.any_eq_false]
      intro a ha
      simpa using hfresh a ha
    simp [register_agent, hdup]

/-- Configuration used by concrete lifecycle witnesses: capacity 0,
10-minute idle timeout, 5-minute heartbeat timeout (in seconds). -/
def cfgZero : LifecycleConfig := ⟨0, 600, 300⟩

/-- Claim C3 witness: with capacity 0, an excluded worker is still
admitted into the empty map, and the trace invariant holds on a concrete
run. -/
theorem C3_witness :
    (register_agent cfgZero 0 "w1" "c1" "p1" true true []).1 = true ∧
      nonExcludedCount (run_ops cfgZero
        [MOp.register 0 "w1" "c1" "p1" true true]) ≤ cfgZero.max_agents :=
  ⟨(C3_capacity_bound cfgZero).2.2 0 "w1" "c1" "p1" true [] (by simp),
    (C3_capacity_bound cfgZero).1 [MOp.register 0 "w1" "c1" "p1" true true]⟩

theorem insertByActivity_mem (a x : AgentInfo) :
    ∀ l, x ∈ insertByActivity a l → x = a ∨ x ∈ l := by
  intro l
  induction l with
  | nil => intro h; simp [insertByActivity] at h; exact Or.inl h
  | cons b rest ih =>
    intro h
    rw [insertByActivity] at h
    split at h
    · rcases List.mem_cons.mp h with h1 | h1
      · exact Or.inl h1
      · exact Or.inr h1
    · rcases List.mem_cons.mp h with h1 | h1
      · exact Or.inr (h1 ▸ List.mem_cons_self b rest)
      · rcases ih h1 with h2 | h2
        · exact Or.inl h2
        · exact Or.inr (List.mem_cons_of_mem b h2)

theorem sortByActivity_mem (x : AgentInfo) :
    ∀ l, x ∈ sortByActivity l → x ∈ l := by
  intro l
  induction l with
  | nil => intro h; simp [sortByActivity] at h
  | cons a rest ih =>
    intro h
    rw [sortByActivity] at h
    rcases insertByActivity_mem a x _ h with h1 | h1
    · exact h1 ▸ List.mem_cons_self a rest
    · exact List.mem_cons_of_mem a (ih h1)

theorem idle_selected_spec (cfg : LifecycleConfig) (now : Int)
    (st : List AgentInfo) (a : AgentInfo) (h : a ∈ idle_selected cfg now st) :
    a ∈ st ∧ a.is_persistent = false := by
  rw [idle_selected] at h
  split at h
  · rcases List.mem_append.mp h with h1 | h1
    · have := List.mem_filter.mp h1
      refine ⟨this.1, ?_⟩
      have h2 := this.2
      simp only [Bool.and_eq_true, Bool.not_eq_true'] at h2
      exact h2.1.1
    · have h2 := (List.mem_filter.mp h1).1
      have h3 := List.take_subset _ _ h2
      have h4 := sortByActivity_mem a _ h3
      have h5 := List.mem_filter.mp h4
      refine ⟨h5.1, ?_⟩
      have h6 := h5.2
      simp only [Bool.and_eq_true, Bool.not_eq_true'] at h6
      exact h6.1.2
  · have := List.mem_filter.mp h
    refine ⟨this.1, ?_⟩
    have h2 := this.2
    simp only [Bool.and_eq_true, Bool.not_eq_true'] at h2
    exact h2.1.1

theorem stale_selected_spec (cfg : LifecycleConfig) (now : Int)
    (st : List AgentInfo) (a : AgentInfo) (h : a ∈ stale_selected cfg now st) :
    a ∈ st ∧ a.is_persistent = false := by
  have := List.mem_filter.mp h
  refine ⟨this.1, ?_⟩
  have h2 := this.2
  simp only [Bool.and_eq_true, Bool.not_eq_true'] at h2
  exact h2.1

/-- Claim C4: no reap pass ever selects a persistent worker — every
agent selected by the stale-heartbeat pass or by the idle/capacity pass
has `is_persistent = false` — and consequently (names being unique, as
they are in the manager's dict) a persistent worker's record survives
both passes untouched. -/
theorem C4_persistent_exemption (cfg : LifecycleConfig) (now : Int)
    (st : List AgentInfo) :
    (∀ a ∈ stale_selected cfg now st, a.is_persistent = false) ∧
    (∀ a ∈ idle_selected cfg now st, a.is_persistent = false) ∧
    ((st.map (fun a => a.name)).Nodup →
      ∀ a ∈ st, a.is_persistent = true →
        a ∈ cleanup_stale_agents cfg now st ∧
          a ∈ cleanup_idle_agents cfg now st) := by
  refine ⟨fun a ha => (stale_selected_spec cfg now st a ha).2,
    fun a ha => (idle_selected_spec cfg now st a ha).2,
    fun hnodup a ha hpers => ⟨?_, ?_⟩⟩
  · refine foldl_unregister_keeps _ st a ha (fun b hb hname => ?_)
    have hbst := stale_selected_spec cfg now st b hb
    have : a = b :=
      List.inj_on_of_nodup_map hnodup ha hbst.1 hname
    rw [this] at hpers
    rw [hbst.2] at hpers
    exact Bool.false_ne_true hpers
  · refine foldl_unregister_keeps _ st a ha (fun b hb hname => ?_)
    have hbst := idle_selected_spec cfg now st b hb
    have : a = b :=
      List.inj_on_of_nodup_map hnodup ha hbst.1 hname
    rw [this] at hpers
    rw [hbst.2] at hpers
    exact Bool.false_ne_true hpers

/-- A persistent, long-idle, stale-heartbeat worker used by the C4
witness. -/
def persistentWorker : AgentInfo :=
  { name := "setup_agent", state := AgentState.idle, container_id := some "c1",
    created_at := 0, last_task_at := some 0, last_heartbeat_at := 0,
    task_count := 3, error_count := 0, profile_name := "setup_agent",
    is_persistent := true, exclude_from_count := true }

/-- A non-persistent, long-idle, stale-heartbeat worker used by the C4
witness. -/
def idleWorker : AgentInfo :=
  { name := "calc_1", state := AgentState.idle, container_id := some "c2",
    created_at := 0, last_task_at := some 0, last_heartbeat_at := 0,
    task_count := 1, error_count := 0, profile_name := "calculator_agent",
    is_persistent := false, exclude_from_count := false }

/-- Claim C4 witness: in a concrete map where both workers are idle and
stale far beyond the timeouts, the persistent worker survives the stale
pass and the idle/capacity pass. -/
theorem C4_witness :
    persistentWorker ∈
        cleanup_stale_agents cfgZero 100000 [persistentWorker, idleWorker] ∧
      persistentWorker ∈
        cleanup_idle_agents cfgZero 100000 [persistentWorker, idleWorker] :=
  (C4_persistent_exemption cfgZero 100000 [persistentWorker, idleWorker]).2.2
    (by decide) persistentWorker (by decide) rfl

/-! ## Collaboration rate limiter (`src/raid/config/collaboration.py`)

`CollaborativeAgentGroup.send_collaboration_message` validates a message
(`validate_message`: membership and type permission, then
`_check_rate_limit`, then size / data-key / target checks), and only on
success records `datetime.utcnow()` in `message_rate_tracking[sender]`,
appends to history and publishes.  `_check_rate_limit` first prunes the
sender's recorded timestamps to those strictly inside the trailing
60-second window (`msg_time > now - 60s`, a mutation that persists even
when the message is later rejected) and then requires strictly fewer
than `max_messages_per_minute` of them.

One sender's stream of send attempts is modelled as a list of events;
the checks that do not involve the rate state are external data on the
event (`okBefore`: sender in group and type permitted, checked before
the rate limit; `okAfter`: size, data keys, target, checked after). -/

structure SendEvent where
  now : Int
  okBefore : Bool
  okAfter : Bool
deriving DecidableEq, Repr

/-- The pruning step of `_check_rate_limit`: keep the timestamps
strictly newer than `now - 60` seconds. -/
def prune_rate_window (now : Int) (tr : List Int) : List Int :=
  tr.filter fun t => now - 60 < t

/-- `_check_rate_limit`: prune, then require strictly fewer than
`max_messages_per_minute` surviving timestamps.  Returns the verdict and
the mutated tracking list. -/
def check_rate_limit (maxPm : Nat) (now : Int) (tr : List Int) :
    Bool × List Int :=
  let pruned := prune_rate_window now tr
  (pruned.length < maxPm, pruned)

/-- `send_collaboration_message` for one sender: validate (membership /
permission, rate limit, then the remaining checks) and, if accepted,
record the send time.  Returns the sender's new tracking list and
whether the message was accepted. -/
def send_collaboration_message (maxPm : Nat) (tr : List Int) (e : SendEvent) :
    List Int × Bool :=
  if !e.okBefore then (tr, false)
  else
    let checked := check_rate_limit maxPm e.now tr
    if !checked.1 then (checked.2, false)
    else if !e.okAfter then (checked.2, false)
    else (checked.2 ++ [e.now], true)

/-- Process a sequence of send attempts, returning the final tracking
list and the per-event log of `(time, accepted)`. -/
def run_sends (maxPm : Nat) : List Int → List SendEvent →
    List Int × List (Int × Bool)
  | tr, [] => (tr, [])
  | tr, e :: es =>
    let step := send_collaboration_message maxPm tr e
    let rest := run_sends maxPm step.1 es
    (rest.1, (e.now, step.2) :: rest.2)

/-- The times of the accepted messages in a log. -/
def accepted_times (log : List (Int × Bool)) : List Int :=
  (log.filter fun p => p.2).map fun p => p.1

/-- Membership of the sliding window `(a, a + 60]`. -/
def in_window (a t : Int) : Bool := decide (a < t) && decide (t ≤ a + 60)

/-- Invariant tying the sender's tracking list to the multiset of
accepted send times: all times are in the past (`≤ lastT`), the tracking
list is a sub-multiset of the accepted times agreeing with them inside
the trailing window of `lastT`, and every 60-second window holds at most
`maxPm` accepted times. -/
def RLInv (maxPm : Nat) (tr acc : List Int) (lastT : Int) : Prop :=
  (∀ t ∈ acc, t ≤ lastT) ∧
  (∀ t ∈ tr, t ≤ lastT) ∧
  (∀ t : Int, lastT - 60 < t → tr.count t = acc.count t) ∧
  (∀ t : Int, tr.count t ≤ acc.count t) ∧
  (∀ a : Int, acc.countP (in_window a) ≤ maxPm)

/-! ## Rate-limit lemmas -/

theorem countP_eq_of_count_eq {q : Int → Bool} {l1 l2 : List Int}
    (h : ∀ t, q t = true → l1.count t = l2.count t) :
    l1.countP q = l2.countP q := by
  rw [List.countP_eq_length_filter, List.countP_eq_length_filter]
  refine List.Perm.length_eq (List.perm_iff_count.mpr fun a => ?_)
  by_cases hq : q a = true
  · rw [List.count_filter hq, List.count_filter hq]
    exact h a hq
  · have h1 : a ∉ l1.filter q := fun hm => hq (List.mem_filter.mp hm).2
    have h2 : a ∉ l2.filter q := fun hm => hq (List.mem_filter.mp hm).2
    rw [List.count_eq_zero.mpr h1, List.count_eq_zero.mpr h2]

theorem count_filter_of_neg {p : Int → Bool} {a : Int} {l : List Int}
    (h : ¬ p a = true) : (l.filter p).count a = 0 :=
  List.count_eq_zero.mpr fun hm => h (List.mem_filter.mp hm).2

theorem in_window_iff (a t : Int) : in_window a t = true ↔ a < t ∧ t ≤ a + 60 := by
  simp [in_window]

theorem pruned_length_eq_countP (maxPm : Nat) (tr acc : List Int)
    (lastT now : Int) (hle : lastT ≤ now) (hinv : RLInv maxPm tr acc lastT) :
    (prune_rate_window now tr).length = acc.countP (in_window (now - 60)) := by
  obtain ⟨h1, h2, h3, h4, h5⟩ := hinv
  rw [prune_rate_window, ← List.countP_eq_length_filter]
  have e1 : tr.countP (fun t => decide (now - 60 < t)) =
      tr.countP (in_window (now - 60)) := by
    refine List.countP_congr fun t ht => ?_
    have htle : t ≤ now := le_trans (h2 t ht) hle
    rw [in_window_iff]
    simp only [decide_eq_true_eq]
    omega
  have e2 : tr.countP (in_window (now - 60)) =
      acc.countP (in_window (now - 60)) := by
    refine countP_eq_of_count_eq fun t htw => ?_
    rw [in_window_iff] at htw
    exact h3 t (by omega)
  rw [e1, e2]

theorem send_step_inv (maxPm : Nat) (tr acc : List Int) (lastT : Int)
    (e : SendEvent) (hle : lastT ≤ e.now) (hinv : RLInv maxPm tr acc lastT) :
    RLInv maxPm (send_collaboration_message maxPm tr e).1
      (acc ++
        (if (send_collaboration_message maxPm tr e).2 then [e.now] else []))
      e.now := by
  have hlen := pruned_length_eq_countP maxPm tr acc lastT e.now hle hinv
  obtain ⟨h1, h2, h3, h4, h5⟩ := hinv
  have hp_mem : ∀ t ∈ prune_rate_window e.now tr, t ≤ e.now := fun t ht =>
    le_trans (h2 t (List.mem_filter.mp ht).1) hle
  have hp_in : ∀ t : Int, e.now - 60 < t →
      (prune_rate_window e.now tr).count t = acc.count t := by
    intro t hgt
    rw [prune_rate_window, List.count_filter (by simpa using hgt)]
    exact h3 t (by omega)
  have hp_out : ∀ t : Int, ¬ e.now - 60 < t →
      (prune_rate_window e.now tr).count t = 0 := by
    intro t hgt
    exact count_filter_of_neg (by simpa using hgt)
  have hacc_now : ∀ t ∈ acc, t ≤ e.now := fun t ht => le_trans (h1 t ht) hle
  have hRejPruned : RLInv maxPm (prune_rate_window e.now tr) acc e.now := by
    refine ⟨hacc_now, hp_mem, hp_in, fun t => ?_, h5⟩
    by_cases hgt : e.now - 60 < t
    · exact le_of_eq (hp_in t hgt)
    · rw [hp_out t hgt]; exact Nat.zero_le _
  have hRejSame : RLInv maxPm tr acc e.now :=
    ⟨hacc_now, fun t ht => le_trans (h2 t ht) hle,
      fun t hgt => h3 t (by omega), h4, h5⟩
  cases hb : e.okBefore with
  | false =>
    simp only [send_collaboration_message, hb, Bool.not_false, if_true,
      Bool.false_eq_true, if_false, List.append_nil]
    exact hRejSame
  | true =>
    simp only [send_collaboration_message, hb, Bool.not_true,
      Bool.false_eq_true, if_false, check_rate_limit]
    by_cases hrate : (prune_rate_window e.now tr).length < maxPm
    · have hd : decide ((prune_rate_window e.now tr).length < maxPm) = true :=
        decide_eq_true hrate
      simp only [hd, Bool.not_true, Bool.false_eq_true, if_false]
      cases ha : e.okAfter with
      | false =>
        simp only [Bool.not_false, if_true, Bool.false_eq_true, if_false,
          List.append_nil]
        exact hRejPruned
      | true =>
        simp only [Bool.not_true, Bool.false_eq_true, if_false, if_true]
        refine ⟨?_, ?_, ?_, ?_, ?_⟩
        · intro t ht
          rcases List.mem_append.mp ht with h' | h'
          · exact hacc_now t h'
          · simp at h'; omega
        · intro t ht
          rcases List.mem_append.mp ht with h' | h'
          · exact hp_mem t h'
          · simp at h'; omega
        · intro t hgt
          rw [List.count_append, List.count_append, hp_in t hgt]
        · intro t
          rw [List.count_append, List.count_append]
          by_cases hgt : e.now - 60 < t
          · rw [hp_in t hgt]
          · rw [hp_out t hgt]; omega
        · intro a
          rw [List.countP_append]
          by_cases hw : in_window a e.now = true
          · have hkey : acc.countP (in_window a) <
                maxPm := by
              have hmono : acc.countP (in_window a) ≤
                  acc.countP (in_window (e.now - 60)) := by
                refine List.countP_mono_left fun t ht hta => ?_
                rw [in_window_iff] at hta ⊢
                rw [in_window_iff] at hw
                have := hacc_now t ht
                omega
              omega
            have : List.countP (in_window a) [e.now] = 1 := by
              simp [List.countP_cons, hw]
            omega
          · have : List.countP (in_window a) [e.now] = 0 := by
              simp [List.countP_cons, hw]
            have := h5 a
            omega
    · have hd : decide ((prune_rate_window e.now tr).length < maxPm) = false :=
        decide_eq_false hrate
      simp only [hd, Bool.not_false, if_true, Bool.false_eq_true, if_false,
        List.append_nil]
      exact hRejPruned

/-- The time of the last event (the manager's clock after processing). -/
def last_time (d : Int) : List SendEvent → Int
  | [] => d
  | e :: es => last_time e.now es

theorem last_time_le (B : Int) :
    ∀ (evs : List SendEvent) (d : Int), (∀ x ∈ evs, x.now ≤ B) → d ≤ B →
      last_time d evs ≤ B := by
  intro evs
  induction evs with
  | nil => intro d _ hd; exact hd
  | cons e es ih =>
    intro d hb _
    exact ih e.now (fun x hx => hb x (List.mem_cons_of_mem e hx))
      (hb e (List.mem_cons_self e es))

theorem accepted_times_cons (t : Int) (b : Bool) (log : List (Int × Bool)) :
    accepted_times ((t, b) :: log) =
      (if b then [t] else []) ++ accepted_times log := by
  cases b <;> simp [accepted_times]

theorem run_sends_inv (maxPm : Nat) :
    ∀ (evs : List SendEvent) (tr acc : List Int) (lastT : Int),
      List.Pairwise (· ≤ ·) (evs.map (fun x => x.now)) →
      (∀ x ∈ evs, lastT ≤ x.now) →
      RLInv maxPm tr acc lastT →
      RLInv maxPm (run_sends maxPm tr evs).1
        (acc ++ accepted_times (run_sends maxPm tr evs).2)
        (last_time lastT evs) := by
  intro evs
  induction evs with
  | nil =>
    intro tr acc lastT _ _ hinv
    simpa [run_sends, accepted_times, last_time] using hinv
  | cons e es ih =>
    intro tr acc lastT hpw hlb hinv
    have hle : lastT ≤ e.now := hlb e (List.mem_cons_self e es)
    have hstep := send_step_inv maxPm tr acc lastT e hle hinv
    have hpw' : List.Pairwise (· ≤ ·) (es.map (fun x => x.now)) := by
      rw [List.map_cons, List.pairwise_cons] at hpw
      exact hpw.2
    have hlb' : ∀ x ∈ es, e.now ≤ x.now := by
      rw [List.map_cons, List.pairwise_cons] at hpw
      intro x hx
      exact hpw.1 x.now (List.mem_map_of_mem _ hx)
    have hrec := ih (send_collaboration_message maxPm tr e).1
      (acc ++ (if (send_collaboration_message maxPm tr e).2 then [e.now]
        else [])) e.now hpw' hlb' hstep
    simp only [run_sends, last_time]
    rw [accepted_times_cons]
    rw [← List.append_assoc]
    exact hrec

theorem RLInv_init (maxPm : Nat) (d : Int) : RLInv maxPm [] [] d := by
  refine ⟨by simp, by simp, by simp, by simp, by simp⟩

/-- The time of the first event, used as a lower bound for the clock. -/
def head_time (d : Int) : List SendEvent → Int
  | [] => d
  | e :: _ => e.now

/-- Claim C5: for every sender, along any chronologically ordered stream
of send attempts, (i) every 60-second window `(a, a + 60]` contains at
most `max_messages_per_minute` accepted messages, and (ii) an attempt
whose sender already has `max_messages_per_minute` accepted sends inside
its trailing 60-second sliding window is rejected. -/
theorem C5_rate_limit_bound (maxPm : Nat) (evs : List SendEvent)
    (hsorted : List.Pairwise (· ≤ ·) (evs.map (fun x => x.now))) :
    (∀ a : Int,
      (accepted_times (run_sends maxPm [] evs).2).countP (in_window a) ≤
        maxPm) ∧
    (∀ (pre post : List SendEvent) (e : SendEvent),
      evs = pre ++ e :: post →
      maxPm ≤ (accepted_times (run_sends maxPm [] pre).2).countP
        (in_window (e.now - 60)) →
      (send_collaboration_message maxPm (run_sends maxPm [] pre).1 e).2 =
        false) := by
  constructor
  · intro a
    have hlb : ∀ x ∈ evs, head_time 0 evs ≤ x.now := by
      cases evs with
      | nil => intro x hx; simp at hx
      | cons e es =>
        intro x hx
        rcases List.mem_cons.mp hx with h' | h'
        · rw [h']; exact le_refl _
        · rw [List.map_cons, List.pairwise_cons] at hsorted
          exact hsorted.1 x.now (List.mem_map_of_mem _ h')
    have h := run_sends_inv maxPm evs [] [] (head_time 0 evs) hsorted hlb
      (RLInv_init maxPm _)
    have h5 := h.2.2.2.2 a
    simpa using h5
  · intro pre post e heq hge
    subst heq
    rw [List.map_append, List.pairwise_append] at hsorted
    obtain ⟨hp1, hp2, hcross⟩ := hsorted
    have hprelb : ∀ x ∈ pre, head_time e.now pre ≤ x.now := by
      cases pre with
      | nil => intro x hx; simp at hx
      | cons p ps =>
        intro x hx
        rcases List.mem_cons.mp hx with h' | h'
        · rw [h']; exact le_refl _
        · rw [List.map_cons, List.pairwise_cons] at hp1
          exact hp1.1 x.now (List.mem_map_of_mem _ h')
    have hinv := run_sends_inv maxPm pre [] [] (head_time e.now pre) hp1
      hprelb (RLInv_init maxPm _)
    have hinv' : RLInv maxPm (run_sends maxPm [] pre).1
        (accepted_times (run_sends maxPm [] pre).2)
        (last_time (head_time e.now pre) pre) := by
      simpa using hinv
    have hfin : last_time (head_time e.now pre) pre ≤ e.now := by
      refine last_time_le e.now pre _ (fun x hx => ?_) ?_
      · exact hcross x.now (List.mem_map_of_mem _ hx) e.now
          (by rw [List.map_cons]; exact List.mem_cons_self _ _)
      · cases pre with
        | nil => exact le_refl _
        | cons p ps =>
          refine hcross p.now ?_ e.now
            (by rw [List.map_cons]; exact List.mem_cons_self _ _)
          rw [List.map_cons]
          exact List.mem_cons_self _ _
    have hlen := pruned_length_eq_countP maxPm (run_sends maxPm [] pre).1
      (accepted_times (run_sends maxPm [] pre).2) _ e.now hfin hinv'
    cases hb : e.okBefore with
    | false => simp [send_collaboration_message, hb]
    | true =>
      have hnot : ¬ (prune_rate_window e.now
          (run_sends maxPm [] pre).1).length < maxPm := by
        rw [hlen]; omega
      have hd : decide ((prune_rate_window e.now
          (run_sends maxPm [] pre).1).length < maxPm) = false :=
        decide_eq_false hnot
      simp [send_collaboration_message, hb, check_rate_limit, hd]

/-- Send stream used by the C5 witness: two attempts, 10 seconds apart,
against a limit of one message per minute. -/
def evsW : List SendEvent := [⟨0, true, true⟩, ⟨10, true, true⟩]

/-- Claim C5 witness: with `max_messages_per_minute = 1`, every window
of the concrete two-send stream holds at most one accepted message, and
the second send (whose sender already has one accepted send in the
trailing window) is rejected. -/
theorem C5_witness :
    (∀ a : Int,
      (accepted_times (run_sends 1 [] evsW).2).countP (in_window a) ≤ 1) ∧
      (send_collaboration_message 1 (run_sends 1 [] [⟨0, true, true⟩]).1
        ⟨10, true, true⟩).2 = false :=
  ⟨(C5_rate_limit_bound 1 evsW (by decide)).1,
    (C5_rate_limit_bound 1 evsW (by decide)).2 [⟨0, true, true⟩] []
      ⟨10, true, true⟩ rfl (by decide)⟩

end Raid
